import Mathlib

/-!
# RIH Care Insight Assistant — verification of the safety-classification and
# response-orchestration pipeline

A shallow embedding of the pipeline of `app/` (router, rules loader, planner,
retriever, dispatcher) together with theorems settling the frozen claims.

Modelling conventions:
 * Python strings are `String`/`List Char`; `str.lower()` is modelled as the
   ASCII case fold (all patterns and inputs of interest are ASCII).
 * `re` patterns used by the code are alternations of literal phrases with
   word boundaries, optional characters, and whitespace gaps; they are
   embedded as lists of `Atom` sequences and matched by an executable
   backtracking search (`searchRe`), mirroring `re.search` with IGNORECASE.
 * Floats are modelled as real numbers (`ℝ`), `math.log` as `Real.log`.
 * File/env I/O is out of scope: the knowledge corpus and the parsed CSV rows
   are parameters.  The dispatcher is embedded in its default configuration
   (env flags at their defaults: `RIH_PLANNER` unset so the rule planner runs,
   `CLARIFY_V2` and `MISSPELLING_CORRECTOR` false so the legacy clarify
   heuristic is used and the spelling pass is skipped, `STRANDS_ENABLED`
   false so the response enhancer is the identity and records no event,
   `RIH_ROUTE_APPOINTMENT_TO_COUNSELING` unset so counseling appointment
   triggers are filtered from CSV rules).
-/

namespace RIH

/-! ## Python string primitives -/

/-- ASCII lower-casing of one character (model of `str.lower` on the ASCII
inputs the pipeline handles): code points 65–90 (`A`–`Z`) shift to 97–122. -/
def pyLowerChar (c : Char) : Char :=
  if 65 ≤ c.toNat ∧ c.toNat ≤ 90 then Char.ofNat (c.toNat + 32) else c

def lowerChars (s : List Char) : List Char := s.map pyLowerChar

/-- Characters `str.strip()` and `\s` treat as whitespace (ASCII part). -/
def pySpace (c : Char) : Bool :=
  c = ' ' || c = '\t' || c = '\n' || c = '\r' || c = '\x0b' || c = '\x0c'

/-- A regex word character `[A-Za-z0-9_]` (ASCII `\w`). -/
def isWordChar (c : Char) : Bool :=
  ('a' ≤ c && c ≤ 'z') || ('A' ≤ c && c ≤ 'Z') || ('0' ≤ c && c ≤ '9') || c = '_'

def isWordOpt : Option Char → Bool
  | none => false
  | some c => isWordChar c

/-- `str.strip()`. -/
def pyStrip (s : List Char) : List Char :=
  ((s.dropWhile pySpace).reverse.dropWhile pySpace).reverse

/-- Python `needle in hay` (substring containment). -/
def strContainsL (hay needle : List Char) : Bool :=
  needle.isPrefixOf hay ||
    match hay with
    | [] => false
    | _ :: rest => strContainsL rest needle

/-- Python `needle in hay` on `String`s, both sides taken verbatim. -/
def strContains (hay needle : String) : Bool := strContainsL hay.data needle.data

/-- Fuelled scanner for `countOcc` (the fuel, one unit per consumed
character, keeps the recursion structural so that proofs can evaluate it). -/
def countOccF (needle : List Char) : Nat → List Char → Nat
  | 0, _ => 0
  | _, [] => 0
  | fuel + 1, c :: rest =>
    if needle ≠ [] ∧ needle.isPrefixOf (c :: rest) then
      countOccF needle fuel (rest.drop (needle.length - 1)) + 1
    else
      countOccF needle fuel rest

/-- Number of non-overlapping, left-to-right occurrences of a nonempty
`needle` (model of `str.count`; returns 0 for an empty needle, a case the
pipeline never produces). -/
def countOcc (needle hay : List Char) : Nat := countOccF needle hay.length hay

/-- Fuelled scanner for `replaceAll`. -/
def replaceAllF (old new : List Char) : Nat → List Char → List Char
  | 0, l => l
  | _, [] => []
  | fuel + 1, c :: rest =>
    if old ≠ [] ∧ old.isPrefixOf (c :: rest) then
      new ++ replaceAllF old new fuel (rest.drop (old.length - 1))
    else
      c :: replaceAllF old new fuel rest

/-- One pass of Python `str.replace(old, new)` (all non-overlapping,
left-to-right occurrences; `old` nonempty in every use). -/
def replaceAll (old new hay : List Char) : List Char :=
  replaceAllF old new hay.length hay

/-- Fuelled scanner for `splitWs`. -/
def splitWsF : Nat → List Char → List (List Char)
  | 0, _ => []
  | _, [] => []
  | fuel + 1, c :: rest =>
    if pySpace c then splitWsF fuel rest
    else
      (c :: rest.takeWhile (fun d => !pySpace d)) ::
        splitWsF fuel (rest.dropWhile (fun d => !pySpace d))

/-- Python `str.split()` with no argument: split on whitespace runs, dropping
empty pieces. -/
def splitWs (l : List Char) : List (List Char) := splitWsF l.length l

/-- Split on every character from `seps` (model of `re.split r"[;|,]"`). -/
def splitAnyOf (seps : List Char) : List Char → List (List Char)
  | [] => [[]]
  | c :: rest =>
    if c ∈ seps then [] :: splitAnyOf seps rest
    else
      match splitAnyOf seps rest with
      | [] => [[c]]
      | piece :: more => (c :: piece) :: more

/-- `text.split('\n')` — the lines of a final answer. -/
def linesOf (s : String) : List (List Char) := splitAnyOf ['\n'] s.data

/-! ## A small regex engine

The patterns compiled by `safety_router.py`, `rules.py` and
`decline_detector.py` are alternations of sequences built from literal
phrases, `\s*`/`\s+`/`\s?` gaps, optional characters `x?`, `.*`, the word
boundary `\b` and the look-arounds `(?<![A-Za-z0-9_])` / `(?![A-Za-z0-9_])`.
Finite groups such as `(ed|ment|ing)?` are expanded into alternatives.
Matching is case-insensitive: the subject is lower-cased and every pattern is
written in lower case. -/

inductive Atom : Type
  /-- a literal run of characters (already lower-cased) -/
  | lit (s : List Char)
  /-- `\s+` when `minOne`, `\s*` otherwise -/
  | ws (minOne : Bool)
  /-- `\s?` -/
  | wsOpt
  /-- an optional single character `c?` -/
  | optChar (c : Char)
  /-- `.*` (any run without a newline) -/
  | dotStar
  /-- `\b` -/
  | wb
  /-- `(?<![A-Za-z0-9_])` -/
  | nlb
  /-- `(?![A-Za-z0-9_])` -/
  | nla
deriving DecidableEq, Repr

/-- A matcher state: the character just before the current position (for
boundary checks) and the remaining subject. -/
abbrev MState := Option Char × List Char

/-- All states reachable by consuming a (possibly empty) prefix of characters
satisfying `p`. -/
def spans (p : Char → Bool) : Option Char → List Char → List MState
  | prev, [] => [(prev, [])]
  | prev, c :: rest =>
    (prev, c :: rest) :: (if p c then spans p (some c) rest else [])

/-- Nondeterministic single-atom step. -/
def matchAtom (a : Atom) : MState → List MState
  | (prev, s) =>
    match a with
    | .lit l =>
      if l.isPrefixOf s then
        [((l.getLast? ).orElse (fun _ => prev), s.drop l.length)]
      else []
    | .ws minOne =>
      match s with
      | [] => if minOne then [] else [(prev, [])]
      | c :: rest =>
        if pySpace c then
          if minOne then spans pySpace (some c) rest
          else spans pySpace prev (c :: rest)
        else if minOne then [] else [(prev, c :: rest)]
    | .wsOpt =>
      (prev, s) ::
        (match s with
         | c :: rest => if pySpace c then [(some c, rest)] else []
         | [] => [])
    | .optChar c =>
      (prev, s) ::
        (match s with
         | d :: rest => if d = c then [(some d, rest)] else []
         | [] => [])
    | .dotStar => spans (fun c => !(c = '\n')) prev s
    | .wb => if isWordOpt prev ≠ isWordOpt s.head? then [(prev, s)] else []
    | .nlb => if !isWordOpt prev then [(prev, s)] else []
    | .nla => if !isWordOpt s.head? then [(prev, s)] else []

/-- Match a whole atom sequence starting exactly at the given state. -/
def matchAtoms (pat : List Atom) (st : MState) : List MState :=
  match pat with
  | [] => [st]
  | a :: rest => (matchAtom a st).flatMap (matchAtoms rest)

/-- Does `pat` match at some start position of the (already lower-cased)
subject?  Mirrors `re.search`. -/
def searchFrom (pat : List Atom) : Option Char → List Char → Bool
  | prev, s =>
    !(matchAtoms pat (prev, s)).isEmpty ||
      match s with
      | [] => false
      | c :: rest => searchFrom pat (some c) rest

/-- An alternation of atom sequences (one compiled `re` pattern). -/
abbrev Regex := List (List Atom)

/-- `re.search(pattern, text)` with `re.IGNORECASE`, as a Bool. -/
def searchRe (re : Regex) (text : String) : Bool :=
  let t := lowerChars text.data
  re.any (fun pat => searchFrom pat none t)

/-- Convenience: a `\b`-delimited literal phrase (lower-case). -/
def bphrase (s : String) : List Atom := [.wb, .lit s.data, .wb]

/-! ## `app/router/safety_router.py` -/

/-- `SLANG_URGENCY + PHRASES_URGENCY` compiled:
`\bkms\b|\bunalive\b|\bkill myself\b|\bsuicide\b|\bend it\b|`
`\bhurt (myself|others)\b|\btake my life\b|\bno reason to live\b`. -/
def urgencyRe : Regex :=
  ["kms", "unalive", "kill myself", "suicide", "end it",
   "hurt myself", "hurt others", "take my life", "no reason to live"].map bphrase

/-- `TITLE_IX` compiled: `\bsex(ual)?\s*(assault|harass(ed|ment|ing)?|misconduct|coercion)\b`,
`\b(non\s*-?\s*consensual|nonconsensual)\b`, `\brape\b`, `\bstalk(ing)?\b`
(the finite groups are expanded into alternatives). -/
def titleIxRe : Regex :=
  (["sex", "sexual"].map fun s1 =>
    (["assault", "harass", "harassed", "harassment", "harassing",
      "misconduct", "coercion"].map fun s2 =>
      [Atom.wb, .lit s1.data, .ws false, .lit s2.data, .wb])).flatten ++
  [[Atom.wb, .lit "non".data, .ws false, .optChar '-', .ws false,
    .lit "consensual".data, .wb]] ++
  (["nonconsensual", "rape", "stalk", "stalking"].map bphrase)

/-- `CONDUCT` compiled: `\b(harass(ed|ment|ing)?)\b`, `\bslur\b`, `\bhate\b`,
`\bracist\b`, `\bhomophobic\b`, `\bableist\b`, `\bthreat(s|en|ening)?\b`,
`\bbully(ing)?\b`, `\bintimidat(e|ion|ing)?\b`, `\bdoxx(ing)?\b`,
`\btargeted harassment\b`. -/
def conductRe : Regex :=
  ["harass", "harassed", "harassment", "harassing",
   "slur", "hate", "racist", "homophobic", "ableist",
   "threat", "threats", "threaten", "threatening",
   "bully", "bullying",
   "intimidat", "intimidate", "intimidation", "intimidating",
   "doxx", "doxxing", "targeted harassment"].map bphrase

/-- `RETENTION` compiled:
`\b(withdraw|transfer|drop\s?out|leave school|quit college)\b`. -/
def retentionRe : Regex :=
  [bphrase "withdraw", bphrase "transfer",
   [Atom.wb, .lit "drop".data, .wsOpt, .lit "out".data, .wb],
   bphrase "leave school", bphrase "quit college"]

/-- `COUNSELING` compiled:
`\b(counsel(ing)?|therapy|therapist|mental health|talk to (someone|a counselor))\b`. -/
def counselingRe : Regex :=
  ["counsel", "counseling", "therapy", "therapist", "mental health",
   "talk to someone", "talk to a counselor"].map bphrase

/-- `RouteResult` of `safety_router.py`. -/
structure RouteResult : Type where
  level : String
  auto_reply_key : String
deriving DecidableEq, Repr

/-- `safety_router.route`: first matching category in the fixed priority
order, with `KEY_MAP` applied. -/
def route (message : String) : Option RouteResult :=
  if searchRe urgencyRe message then some ⟨"urgent_safety", "crisis"⟩
  else if searchRe titleIxRe message then some ⟨"title_ix", "title_ix"⟩
  else if searchRe conductRe message then some ⟨"harassment_hate", "conduct"⟩
  else if searchRe retentionRe message then some ⟨"retention_withdraw", "retention"⟩
  else if searchRe counselingRe message then some ⟨"counseling", "counseling"⟩
  else none

/-! ## `app/tools/decline_detector.py` -/

/-- The `(?:do\s*not|don't|dont)` group, expanded. -/
def dontAlts : List (List Atom) :=
  [[Atom.lit "do".data, .ws false, .lit "not".data],
   [Atom.lit "don\x27t".data],
   [Atom.lit "dont".data]]

/-- The `(?:am|m|'m|’m)` group, expanded (without the empty alternative). -/
def amAlts : List (List Atom) :=
  [[Atom.lit "am".data], [Atom.lit "m".data],
   [Atom.lit "\x27m".data], [Atom.lit "’m".data]]

/-- The service-keyword group
`(counseling|counselling|therapy|doctor|medical|appointment|session|rih|help|support)`. -/
def serviceKws : List String :=
  ["counseling", "counselling", "therapy", "doctor", "medical",
   "appointment", "session", "rih", "help", "support"]

/-- `DeclineDetector.raw_patterns`, each compiled (finite groups expanded;
a trailing `.*` is dropped since it never affects `re.search` success). -/
def declinePatterns : List Regex :=
  [ -- `\bno thanks?\b`
    [[Atom.wb, .lit "no thank".data, .optChar 's', .wb]],
    -- `\bno thank you\b`
    [bphrase "no thank you"],
    -- `\bnah\b`, `\bnope\b`
    [bphrase "nah"], [bphrase "nope"],
    -- `\bi\s*(?:am|m|'m|’m)?\s*(good|fine)\b`
    (["good", "fine"].map fun w =>
       [Atom.wb, .lit "i".data, .ws false, .ws false, .lit w.data, .wb]) ++
    (amAlts.map fun mid =>
       (["good", "fine"].map fun w =>
          [Atom.wb, .lit "i".data, .ws false] ++ mid ++
            [Atom.ws false, .lit w.data, .wb])).flatten,
    -- `\bnot interested\b`
    [bphrase "not interested"],
    -- `\bi\s*(?:am|m|'m|’m)\s*not interested\b`
    amAlts.map fun mid =>
      [Atom.wb, .lit "i".data, .ws false] ++ mid ++
        [Atom.ws false, .lit "not interested".data, .wb],
    -- `\bi\s*(?:do\s*not|don't|dont)\s*(need|want)\b.*`
    (dontAlts.map fun g =>
       (["need", "want"].map fun w =>
          [Atom.wb, .lit "i".data, .ws false] ++ g ++
            [Atom.ws false, .lit w.data, .wb])).flatten,
    -- `\bi\s*(?:do\s*not|don't|dont)\s*want\b.*\b(counseling|...|support)\b`
    (dontAlts.map fun g =>
       (serviceKws.map fun kw =>
          [Atom.wb, .lit "i".data, .ws false] ++ g ++
            [Atom.ws false, .lit "want".data, .wb, .dotStar, .wb,
             .lit kw.data, .wb])).flatten,
    -- `\bany other option(?:s)?\b`
    [[Atom.wb, .lit "any other option".data, .optChar 's', .wb]],
    -- `\bany alternatives?\b`
    [[Atom.wb, .lit "any alternative".data, .optChar 's', .wb]],
    -- `\banother option\b`, `\bsomething else\b`
    [bphrase "another option"], [bphrase "something else"],
    -- `\bother (?:support|resource|resources|campus resources?)\b`
    [bphrase "other support", bphrase "other resource", bphrase "other resources",
     [Atom.wb, .lit "other campus resource".data, .optChar 's', .wb]] ]

/-- The fallback `\bno\b` pattern. -/
def bareNoRe : Regex := [bphrase "no"]

/-- The fallback service-keyword pattern
`\b(counseling|counselling|therapy|doctor|medical|appointment|session|rih|help|support)\b`. -/
def serviceKwRe : Regex := serviceKws.map bphrase

/-- `DeclineDetector.is_decline`. -/
def isDecline (text : String) : Bool :=
  if text = "" then false
  else
    let t := pyStrip text.data
    if t = [] then false
    else if lowerChars t ∈ ["no".data, "nah".data, "nope".data] then false
    else if declinePatterns.any fun re =>
              re.any fun pat => searchFrom pat none (lowerChars t) then true
    else
      searchRe bareNoRe (String.mk t) && searchRe serviceKwRe (String.mk t)

/-! ## `app/agent/planner.py` -/

/-- `_contains_any(text, words)`. -/
def containsAny (text : String) (words : List String) : Bool :=
  words.any fun w => strContainsL (lowerChars text.data) w.data

/-- `_MEDICAL_MARKERS`. -/
def medicalMarkers : List String :=
  ["medical", "doctor", "nurse", "immunization", "vaccine", "shot"]

def hasMedicalMarker (text : String) : Bool := containsAny text medicalMarkers

/-- `_APPT_WORDS ∪ _APPT_AMBIG_WORDS`. -/
def apptWords : List String :=
  ["appointment", "appointments", "schedule", "scheduling", "book", "booking",
   "session", "sessions", "visit", "intake", "reschedule", "cancel",
   "availability", "walk-in", "same-day"]

def looksLikeAppointment (text : String) : Bool := containsAny text apptWords

/-- A plan step's `input` payload. -/
inductive StepInput : Type
  | empty
  | query (q : String)
  | clarifyMeta (kind question : String) (options : List String)
deriving DecidableEq, Repr

/-- `PlanStep` (`{"tool": ..., "input": ...}`). -/
structure PlanStep : Type where
  tool : String
  input : StepInput
deriving DecidableEq, Repr

/-- The two-step clarify→retrieve plan built by `Planner.plan`. -/
def clarifyRetrievePlan (user_text : String) : List PlanStep :=
  [⟨"clarify",
    .clarifyMeta "counseling_vs_medical_appt"
      "Do you want to schedule a **counseling** appointment or a **medical** appointment?"
      ["counseling", "medical"]⟩,
   ⟨"retrieve", .query user_text⟩]

/-- `Planner.plan` (the rule planner). -/
def plannerPlan (route_level : Option String) (user_text : String) : List PlanStep :=
  let t := String.mk (lowerChars user_text.data)
  if route_level = some "urgent_safety" then [⟨"crisis", .empty⟩]
  else if route_level ∈ [some "title_ix", some "harassment_hate",
                         some "retention_withdraw", some "counseling"] then
    if route_level = some "counseling" ∧ looksLikeAppointment t = true ∧
        hasMedicalMarker t = false then
      clarifyRetrievePlan user_text
    else
      [⟨if route_level = some "retention_withdraw" then "retention"
        else (route_level.getD ""), .empty⟩]
  else if looksLikeAppointment t = true ∧ hasMedicalMarker t = false then
    clarifyRetrievePlan user_text
  else
    [⟨"retrieve", .query user_text⟩]

/-! ## `app/answer/compose.py` -/

/-- `TEMPLATES` plus the `.get` default of `render_template`. -/
def templateFor (key : String) : String :=
  if key = "crisis" then
    "If you might be in danger or considering self-harm: Call 911 or 988 now. On campus, contact UMBC Police (410-455-5555). RIH Urgent Care: 410-455-2542. I can’t proceed with a normal answer, but you’re not alone."
  else if key = "title_ix" then
    "Title IX support: Report or seek confidential guidance. Title IX Office: 410-455-1717. You can learn about options and supportive measures without making a formal report."
  else if key = "conduct" then
    "Student Conduct/CARE resources can help with harassment, bias, or threats. We can connect you with support, safety planning, and reporting options."
  else if key = "retention" then
    "Thinking about withdrawing or taking a break? Academic Advising and Student Success can help you explore options, deadlines, and impacts before you decide."
  else if key = "counseling" then
    "Counseling at RIH: appointments, brief therapy, referrals, and workshops are available. If this is urgent, see crisis options above."
  else
    "I’ll point you to the right campus resource."

def crisisMessage : String := templateFor "crisis"

/-- A knowledge-base chunk (one JSONL record; absent keys are `none`). -/
structure Chunk : Type where
  text : Option String
  title : Option String
  category : Option String
  url : Option String
deriving DecidableEq, Repr

/-- `"\n".join`-style concatenation. -/
def joinLines (parts : List String) : String := String.intercalate "\n" parts

/-- The body of `compose_answer`'s per-chunk loop: numbered bullet lines and
`Sources` entries for the first three chunks. -/
def composeEntries (chunks : List Chunk) : List String × List String :=
  let numbered := (chunks.take 3).enumFrom 1
  (numbered.map fun (i, c) =>
      let title := c.title.getD "RIH"
      -- `text = (c.get("text", "") or "").strip()`; `snippet = text[:220].rstrip()`
      let snippet := String.mk
        ((((pyStrip (c.text.getD "").data).take 220).reverse.dropWhile pySpace).reverse)
      "[" ++ toString i ++ "] " ++ title ++ ": " ++ snippet,
   numbered.map fun (i, c) =>
      let title := c.title.getD "RIH"
      match c.url with
      | some u => if u ≠ "" then "[" ++ toString i ++ "] " ++ title ++ " (" ++ u ++ ")"
                  else "[" ++ toString i ++ "] " ++ title
      | none => "[" ++ toString i ++ "] " ++ title)

/-- `compose_answer(query, chunks)`. -/
def composeAnswer (chunks : List Chunk) : String :=
  if chunks = [] then
    "I couldn’t find a specific page in the knowledge base yet. Try rephrasing or ask about hours, appointments, billing, or counseling."
  else
    let (bullets, sources) := composeEntries chunks
    joinLines (("Here’s what I found:" :: bullets) ++
      (if sources ≠ [] then ["\nSources:"] ++ sources else []))

/-! ## `app/retriever/retriever.py`

The corpus (the chunks `_load_kb` would read from `KB_DIR/*.jsonl`) is a
parameter `items`; the lazily cached `_idf` table is the function
`idf items`.  Float arithmetic is modelled over `ℝ` with `Real.log`. -/

/-- `[a-z0-9]` — a character of `_WORD_RE`. -/
def isTokChar (c : Char) : Bool := ('a' ≤ c && c ≤ 'z') || ('0' ≤ c && c ≤ '9')

/-- Fuelled scanner for `wordRuns`. -/
def wordRunsF : Nat → List Char → List (List Char)
  | 0, _ => []
  | _, [] => []
  | fuel + 1, c :: rest =>
    if isTokChar c then
      (c :: rest.takeWhile isTokChar) :: wordRunsF fuel (rest.dropWhile isTokChar)
    else wordRunsF fuel rest

/-- `_WORD_RE.findall`: maximal runs of `[a-z0-9]`. -/
def wordRuns (l : List Char) : List (List Char) := wordRunsF l.length l

/-- `_STOPWORDS`. -/
def stopwords : List String :=
  ["the", "a", "an", "and", "or", "of", "to", "for", "in", "on", "at", "by",
   "with", "from", "is", "are", "was", "were", "be", "being", "been", "it",
   "this", "that", "these", "those", "you", "your", "we", "our", "us", "they",
   "their", "i", "call", "page", "hours", "location", "campus", "service",
   "services"]

/-- `_tokens(s)`. -/
def pyTokens (s : String) : List (List Char) :=
  (wordRuns (lowerChars s.data)).filter fun t => !(stopwords.map String.data).contains t

/-- The token multiset of a chunk's text/title/category (`_build_idf`'s
per-chunk token list; `df` only uses its set of elements). -/
def chunkTokens (c : Chunk) : List (List Char) :=
  pyTokens (c.text.getD "") ++ pyTokens (c.title.getD "") ++ pyTokens (c.category.getD "")

/-- Document frequency of a token over the corpus. -/
def dfOf (items : List Chunk) (tok : List Char) : Nat :=
  (items.filter fun c => (chunkTokens c).contains tok).length

/-- `_idf.get(tok, 0.0)`: the smoothed BM25-style idf
`ln((N - df + 0.5)/(df + 0.5) + 1)` for tokens present in the corpus,
`0.0` otherwise. -/
noncomputable def idf (items : List Chunk) (tok : List Char) : ℝ :=
  let d := dfOf items tok
  if d = 0 then 0
  else Real.log ((((items.length : ℝ) - (d : ℝ) + 0.5) / ((d : ℝ) + 0.5)) + 1)

/-- `_score(query, c)`. -/
noncomputable def score (items : List Chunk) (query : String) (c : Chunk) : ℝ :=
  let q := pyStrip (lowerChars query.data)
  if q = [] then 0
  else
    let toks := ((wordRuns q).filter
        fun t => !(stopwords.map String.data).contains t).filter
        fun t => 2 < t.length
    if toks = [] then 0
    else
      let text := lowerChars (c.text.getD "").data
      let title := lowerChars (c.title.getD "").data
      let cat := lowerChars (c.category.getD "").data
      -- `tf_text[t] = toks.count t * text.count(t)` after the accumulation
      -- loop; the score loop then adds one summand per `toks` element.
      let base := toks.foldl
        (fun acc t =>
          acc + idf items t *
            (((toks.count t : ℝ) * (countOcc t text : ℝ)) * 1.0 +
             ((toks.count t : ℝ) * (countOcc t title : ℝ)) * 2.0 +
             ((toks.count t : ℝ) * (countOcc t cat : ℝ)) * 1.0)) 0
      let words := (splitWs q).filter fun w => !(stopwords.map String.data).contains w
      base +
        (if 2 ≤ words.length ∧ words.length ≤ 4 ∧
            strContainsL text (List.intercalate [' '] words) = true
         then (0.5 : ℝ) else 0)

/-- Stable insertion into a descending list (the stable descending sort
`scored.sort(key=lambda x: x[0], reverse=True)` performs: an earlier element
with an equal score stays in front). -/
noncomputable def insDesc (x : ℝ × Chunk) : List (ℝ × Chunk) → List (ℝ × Chunk)
  | [] => [x]
  | y :: ys => if y.1 ≤ x.1 then x :: y :: ys else y :: insDesc x ys

noncomputable def sortDesc : List (ℝ × Chunk) → List (ℝ × Chunk)
  | [] => []
  | x :: xs => insDesc x (sortDesc xs)

/-- `retrieve(query, k=3, top_k=None)`. -/
noncomputable def retrieve (query : String) (items : List Chunk)
    (k : Int := 3) (top_k : Option Int := none) : List Chunk :=
  let limit : Int := max 1 (top_k.getD k)
  if items.isEmpty then []
  else
    let scored := (items.map fun c => (score items query c, c)).filter fun p => 0 < p.1
    if scored.isEmpty then []
    else ((sortDesc scored).take limit.toNat).map Prod.snd

/-! ## `app/answer/alternatives.py` -/

/-- `safe_alternatives()`. -/
def safeAlternatives : String :=
  "Thanks for letting me know. If you’re not interested in counseling or medical care right now, here are some other UMBC resources you might find helpful:\n\n- **The Gathering Space for Spiritual Well-Being (i3b):** Community, reflection, and support around meaning, identity, and belonging.\n- **Retriever Essentials:** Free food and essential supplies for students experiencing food insecurity.\n- **UMBC RAC (Recreation Center):** Gym, fitness classes, and recreation spaces that can support stress relief and physical well-being.\n- **Library & Study Spaces:** Quiet study areas, research help, and places to focus or recharge.\n- **Academic Success Center:** Tutoring, coaching, and academic skills support.\n- **Campus Life & Student Organizations:** Student orgs, events, and community-building activities.\n- **Career Center:** Support with internships, jobs, and career planning.\n\nIf you ever decide you’d like to connect with Retriever Integrated Health again later, you can always schedule through the patient portal or by calling their main number."

/-! ## `app/agent/dispatcher.py` (default configuration)

Env flags at their defaults: the rule planner runs, the spelling pass is
skipped (`query_text = user_text`), the legacy `_should_auto_clarify`
heuristic decides the auto-recovery, and the response enhancer is the
identity and records no `enhance` event. -/

/-- One trace record of a `respond` call. -/
inductive Event : Type
  /-- `{"event": "route", "level": ...}` -/
  | route (level : Option String)
  /-- `{"event": "decline", "handled_by": "alternatives"}` -/
  | decline
  /-- `{"event": "plan", "planner": ..., "steps": ...}` -/
  | plan (planner : String) (steps : List PlanStep)
  /-- `{"event": "tool", "name": ..., "hits": ...}` with the optional
  `auto`/`retry` flags of the auto-recovery events -/
  | tool (name : String) (hits : Option Int) (auto retry : Bool)
deriving DecidableEq, Repr

/-- `_run_clarify`'s fixed question. -/
def clarifyText : String :=
  "Just to clarify—do you mean a counseling appointment or a medical appointment? If counseling, say \x27counseling appointment\x27. If medical, say \x27medical appointment\x27."

/-- `_should_auto_clarify` (the legacy Phase-5 heuristic). -/
def shouldAutoClarify (user_text : String) : Bool :=
  let t := String.mk (lowerChars user_text.data)
  if strContains t "appointment" = false then false
  else if (["medical", "doctor", "nurse", "immunization", "vaccine", "shot",
            "counseling", "counselling", "therapy",
            "therapist"].any fun w => strContains t w) then false
  else true

/-- `step_input.get("query", user_text)`. -/
def queryOf (inp : StepInput) (user_text : String) : String :=
  match inp with
  | .query q => q
  | _ => user_text

/-- `_run_retrieve`. -/
noncomputable def runRetrieve (items : List Chunk) (q : String) : String × Int :=
  let hits := retrieve q items 3 (some 3)
  (composeAnswer hits, (hits.length : Int))

/-- `_exec_tool`. -/
noncomputable def execTool (items : List Chunk) (tool : String) (user_text : String)
    (inp : StepInput) : String × Int :=
  let t := String.mk (lowerChars tool.data)
  if t = "retrieve" then runRetrieve items (queryOf inp user_text)
  else if t ∈ ["counseling", "title_ix", "conduct", "retention"] then
    (templateFor t, -1)
  else if t = "clarify" then (clarifyText, -1)
  else runRetrieve items user_text

/-- The body of the `for step in steps[:2]` loop, including the
auto-recovery branch (which `break`s). -/
noncomputable def goSteps (items : List Chunk) (query_text user_text : String) :
    List PlanStep → Nat → List String × List Event
  | [], _ => ([], [])
  | step :: rest, executed =>
    let out := execTool items step.tool query_text step.input
    let ev := Event.tool step.tool (if 0 ≤ out.2 then some out.2 else none) false false
    if executed + 1 = 1 ∧ step.tool = "retrieve" ∧ out.2 = 0 ∧
        shouldAutoClarify user_text = true then
      let retryOut := execTool items "retrieve" query_text (.query query_text)
      ([out.1, clarifyText, retryOut.1],
       [ev, .tool "clarify" none true false,
        .tool "retrieve" (some retryOut.2) false true])
    else
      let next := goSteps items query_text user_text rest (executed + 1)
      (out.1 :: next.1, ev :: next.2)

/-- Execute at most two steps of the plan (`steps[:2]`). -/
noncomputable def runSteps (items : List Chunk) (query_text user_text : String)
    (steps : List PlanStep) : List String × List Event :=
  goSteps items query_text user_text (steps.take 2) 0

/-- `_APPT_OR_GROUP_MARKERS`. -/
def apptOrGroupMarkers : List String :=
  ["appointment", "appointments", "schedule", "scheduling", "reschedule",
   "cancel", "session", "sessions", "workshop", "support group",
   "group counseling", "groups", "availability", "available"]

/-- The `{text, trace}` result of `Dispatcher.respond`. -/
structure RespondResult : Type where
  text : String
  trace : List Event
deriving DecidableEq, Repr

/-- `Dispatcher.respond` in the default configuration. -/
noncomputable def respond (items : List Chunk) (user_text : String) : RespondResult :=
  let r := route user_text
  let route_level := r.map RouteResult.level
  let auto_key := r.map RouteResult.auto_reply_key
  let trace0 := [Event.route route_level]
  if r.isSome ∧ auto_key = some "crisis" then ⟨crisisMessage, trace0⟩
  else if route_level ≠ some "crisis" ∧ isDecline user_text = true then
    ⟨safeAlternatives, trace0 ++ [.decline]⟩
  else
    let lower := String.mk (lowerChars user_text.data)
    let counseling_needs_plan : Bool :=
      decide (route_level = some "counseling") &&
        apptOrGroupMarkers.any fun m => strContains lower m
    if r.isSome ∧ (route_level ≠ some "counseling" ∨
        (route_level = some "counseling" ∧ counseling_needs_plan = false)) then
      ⟨templateFor (auto_key.getD ""), trace0⟩
    else
      -- spelling pass disabled: `query_text = user_text`
      let query_text := user_text
      let steps := plannerPlan route_level query_text
      let execOut := runSteps items query_text user_text steps
      let final_text := String.intercalate "\n\n" (execOut.1.filter fun p => p ≠ "")
      -- enhancement pass disabled: identity, no `enhance` event
      ⟨final_text, (trace0 ++ [.plan "rule" steps]) ++ execOut.2⟩

/-! ## `app/router/rules.py` (first, live copy of the class)

The CSV file itself is I/O; its parsed, header-normalized rows are the
parameter (`CsvRow` holds `""` for a missing column).  Env defaults:
`RIH_ROUTING_REQUIRE_CSV` unset, `RIH_ROUTE_APPOINTMENT_TO_COUNSELING`
unset (so `appointment(s)` is filtered from counseling triggers). -/

/-- `NORMALIZE_MAP`, in insertion order. -/
def normalizeMap : List (String × String) :=
  [("harrased", "harassed"), ("harrasment", "harassment"),
   ("harrassment", "harassment"),
   ("unalive", "kill myself"), ("kms", "kill myself"), ("kys", "kill myself"),
   ("sucide", "suicide"), ("commited suicide", "committed suicide"),
   ("drop from college", "drop out"), ("leave uni", "leave university")]

/-- `Rules.normalize`: lower-case, then apply each `NORMALIZE_MAP`
substitution in order. -/
def rulesNormalize (text : String) : String :=
  String.mk (normalizeMap.foldl
    (fun t (p : String × String) => replaceAll p.1.data p.2.data t)
    (lowerChars text.data))

/-- `DEFAULT_PRIORITY`. -/
def defaultPriority : List (String × Int) :=
  [("urgent_safety", 1), ("title_ix", 2), ("harassment_hate", 3),
   ("retention_withdraw", 4), ("counseling", 5)]

def lookupInt (l : List (String × Int)) (k : String) (d : Int) : Int :=
  match l.find? fun p => p.1 = k with
  | some p => p.2
  | none => d

/-- A routing rule (patterns are the compiled regex objects). -/
structure Rule : Type where
  category : String
  response_key : String
  patterns : List Regex
  priority : Int
deriving DecidableEq, Repr

/-- `rules.py`'s `TITLE_IX` default differs from the router's: it also
contains the generic `\bharass(ed|ment|ing)?\b` alternative. -/
def rulesTitleIxRe : Regex :=
  (["sex", "sexual"].map fun s1 =>
    (["assault", "harass", "harassed", "harassment", "harassing",
      "misconduct", "coercion"].map fun s2 =>
      [Atom.wb, .lit s1.data, .ws false, .lit s2.data, .wb])).flatten ++
  (["harass", "harassed", "harassment", "harassing"].map bphrase) ++
  [[Atom.wb, .lit "non".data, .ws false, .optChar '-', .ws false,
    .lit "consensual".data, .wb]] ++
  (["nonconsensual", "rape", "stalk", "stalking"].map bphrase)

/-- `Rules._defaults_dict()` (one compiled alternation per category). -/
def defaultsDict : List (String × Rule) :=
  [("urgent_safety", ⟨"urgent_safety", "crisis", [urgencyRe], 1⟩),
   ("title_ix", ⟨"title_ix", "title_ix", [rulesTitleIxRe], 2⟩),
   ("harassment_hate", ⟨"harassment_hate", "conduct", [conductRe], 3⟩),
   ("retention_withdraw", ⟨"retention_withdraw", "retention", [retentionRe], 4⟩),
   ("counseling", ⟨"counseling", "counseling", [counselingRe], 5⟩)]

/-- One trigger phrase compiled by `Rules._compile_terms`:
`re.escape(t)` makes every character literal, escaped spaces become `\s+`,
and the result is wrapped in `(?<![A-Za-z0-9_])…(?![A-Za-z0-9_])`. -/
def termPattern (t : String) : List Atom :=
  [Atom.nlb] ++
    (t.data.map fun c => if c = ' ' then Atom.ws true else Atom.lit [pyLowerChar c]) ++
  [Atom.nla]

/-- `Rules._compile_terms`. -/
def compileTerms (terms : List String) : List Regex :=
  terms.filterMap fun t =>
    let t := String.mk (pyStrip t.data)
    if t = "" then none else some [termPattern t]

/-- `Rules._split_triggers`: split on `;`, `|` or `,`, strip, drop empties. -/
def splitTriggers (s : String) : List String :=
  ((splitAnyOf [';', '|', ','] s.data).map fun p => String.mk (pyStrip p)).filter
    fun p => p ≠ ""

/-- A parsed, header-normalized CSV row (`""` = column missing/empty). -/
structure CsvRow : Type where
  category : String := ""
  level : String := ""
  response_key : String := ""
  auto_reply_key : String := ""
  priority : String := ""
  example_triggers : String := ""
deriving DecidableEq, Repr

/-- `a or b` on strings (Python falsiness of `""`). -/
def orEmpty (a b : String) : String := if a = "" then b else a

/-- `int(s)` on a stripped decimal string, `none` on `ValueError`. -/
def parseInt (s : String) : Option Int :=
  match s.data with
  | [] => none
  | '-' :: ds => if ds ≠ [] ∧ ds.all Char.isDigit then
      some (-(ds.foldl (fun n c => n * 10 + (c.toNat - 48)) 0 : Nat)) else none
  | ds => if ds.all Char.isDigit then
      some ((ds.foldl (fun n c => n * 10 + (c.toNat - 48)) 0 : Nat) : Int) else none

/-- Python `dict` insertion: replace in place or append. -/
def dinsert (k : String) (v : Rule) : List (String × Rule) → List (String × Rule)
  | [] => [(k, v)]
  | (k2, v2) :: rest => if k2 = k then (k, v) :: rest else (k2, v2) :: dinsert k v rest

/-- Python `dict` lookup. -/
def dlookup (k : String) : List (String × Rule) → Option Rule
  | [] => none
  | (k2, v) :: rest => if k2 = k then some v else dlookup k rest

/-- The `(category, Rule)` entry one CSV row contributes in
`Rules._load_from_csv`'s loop body (`none` when the row is skipped). -/
def csvRowRule (row : CsvRow) : Option (String × Rule) :=
  let category := orEmpty row.category row.level
  if category = "" then none
  else
    let response_key := orEmpty row.response_key (orEmpty row.auto_reply_key category)
    let priority : Int :=
      if row.priority = "" then lookupInt defaultPriority category 100
      else (parseInt row.priority).getD (lookupInt defaultPriority category 100)
    let terms := splitTriggers row.example_triggers
    -- `RIH_ROUTE_APPOINTMENT_TO_COUNSELING` unset: filter appointment terms
    let terms :=
      if category = "counseling" then
        terms.filter fun t =>
          ¬ String.mk (lowerChars t.data) ∈ ["appointment", "appointments"]
      else terms
    let pats := compileTerms terms
    if pats = [] then none
    else some (category, ⟨category, response_key, pats, priority⟩)

/-- `Rules._load_from_csv` on the parsed rows (`rules[category] = Rule(...)`
per kept row, in order). -/
def loadFromCsv (rows : List CsvRow) : List (String × Rule) :=
  rows.foldl
    (fun acc row =>
      match csvRowRule row with
      | none => acc
      | some (k, r) => dinsert k r acc)
    []

/-- `merged = defaults.copy(); merged.update(csv_rules)` over a base dict. -/
def dupdate (base upd : List (String × Rule)) : List (String × Rule) :=
  upd.foldl (fun acc p => dinsert p.1 p.2 acc) base

/-- `Rules._load` on the parsed rows: merge the CSV rules over the defaults
(CSV overrides present categories; missing categories keep the defaults). -/
def rulesLoad (rows : List CsvRow) : List (String × Rule) :=
  dupdate defaultsDict (loadFromCsv rows)

/-- Stable sort of the dict values by ascending priority
(`sorted(self.by_category.values(), key=lambda r: r.priority)`). -/
def insByPriority (x : Rule) : List Rule → List Rule
  | [] => [x]
  | y :: ys => if x.priority ≤ y.priority then x :: y :: ys else y :: insByPriority x ys

def sortByPriority : List Rule → List Rule
  | [] => []
  | x :: xs => insByPriority x (sortByPriority xs)

/-- `Rules.match`: normalize, then first rule (in ascending priority) with a
matching pattern. -/
def rulesMatch (byCategory : List (String × Rule)) (text : String) :
    Option (String × String) :=
  let t := rulesNormalize text
  ((sortByPriority (byCategory.map Prod.snd)).filterMap fun rule =>
    if rule.patterns.any (fun re => searchRe re t) then
      some (rule.category, rule.response_key)
    else none).head?

/-! ## Trace observations -/

/-- Is this a `tool` trace event? -/
def isToolEvent : Event → Bool
  | .tool _ _ _ _ => true
  | _ => false

/-- Is this the `{"name": "clarify", "auto": True}` auto-recovery event? -/
def isAutoClarifyEvent : Event → Bool
  | .tool _ _ auto _ => auto
  | _ => false

/-- Is this the `{"name": "retrieve", "retry": True}` auto-recovery event? -/
def isRetryEvent : Event → Bool
  | .tool _ _ _ retry => retry
  | _ => false

/-- Is this the `tool` event of an ordinary plan-step execution (neither
`auto` nor `retry`)? -/
def isPlanStepToolEvent : Event → Bool
  | .tool _ _ auto retry => !auto && !retry
  | _ => false

/-- The `name` field of a `tool` event. -/
def evToolName : Event → String
  | .tool n _ _ _ => n
  | _ => ""

/-- A line key that is insensitive to case and whitespace (the spec's
"collapse repeated lines (case/whitespace-insensitive)" equivalence). -/
def normLine (l : List Char) : List Char :=
  lowerChars (List.intercalate [' '] (splitWs l))

/-! ## Dict lemmas for the rule merge -/

theorem dlookup_append (k : String) (l1 l2 : List (String × Rule)) :
    dlookup k (l1 ++ l2) =
      (dlookup k l1).orElse (fun _ => dlookup k l2) := by
  induction l1 with
  | nil => simp [dlookup]
  | cons p rest ih =>
    by_cases h : p.1 = k
    · simp [dlookup, h]
    · simpa [dlookup, h] using ih

theorem dlookup_dinsert (k k2 : String) (v : Rule) (l : List (String × Rule)) :
    dlookup k (dinsert k2 v l) = if k2 = k then some v else dlookup k l := by
  induction l with
  | nil => simp [dinsert, dlookup]
  | cons p rest ih =>
    by_cases h : p.1 = k2
    · rw [show dinsert k2 v (p :: rest) = (k2, v) :: rest from by
        simp [dinsert, h]]
      by_cases h2 : k2 = k
      · simp [dlookup, h2]
      · have h3 : ¬ p.1 = k := fun hk => h2 (h.symm.trans hk)
        simp [dlookup, h2, h3]
    · rw [show dinsert k2 v (p :: rest) = p :: dinsert k2 v rest from by
        simp [dinsert, h]]
      by_cases h2 : p.1 = k
      · have h3 : ¬ k2 = k := fun hk => h (h2.trans hk.symm)
        simp [dlookup, h2, h3]
      · simp [dlookup, h2, ih]

theorem dlookup_dupdate (k : String) (upd base : List (String × Rule)) :
    dlookup k (dupdate base upd) =
      (dlookup k upd.reverse).orElse (fun _ => dlookup k base) := by
  induction upd generalizing base with
  | nil => simp [dupdate, dlookup]
  | cons p rest ih =>
    show dlookup k (dupdate (dinsert p.1 p.2 base) rest) = _
    rw [ih, List.reverse_cons, dlookup_append, dlookup_dinsert]
    by_cases h : p.1 = k <;>
      cases hr : dlookup k rest.reverse <;>
        simp [dlookup, h, Option.orElse, hr]

theorem dlookup_none_of_not_mem (k : String) (l : List (String × Rule))
    (h : k ∉ l.map Prod.fst) : dlookup k l = none := by
  induction l with
  | nil => rfl
  | cons p rest ih =>
    simp only [List.map_cons, List.mem_cons] at h
    push_neg at h
    have h1 : ¬ p.1 = k := fun hk => h.1 hk.symm
    simp [dlookup, h1, ih h.2]

theorem map_fst_dinsert (k : String) (v : Rule) (l : List (String × Rule)) :
    (dinsert k v l).map Prod.fst =
      if k ∈ l.map Prod.fst then l.map Prod.fst else l.map Prod.fst ++ [k] := by
  induction l with
  | nil => simp [dinsert]
  | cons p rest ih =>
    by_cases h : p.1 = k
    · rw [show dinsert k v (p :: rest) = (k, v) :: rest from by simp [dinsert, h]]
      simp [h]
    · rw [show dinsert k v (p :: rest) = p :: dinsert k v rest from by
        simp [dinsert, h]]
      have h2 : ¬ k = p.1 := fun hk => h hk.symm
      by_cases hm : k ∈ rest.map Prod.fst <;> simp [ih, hm, h2]

theorem keysNodup_dinsert (k : String) (v : Rule) (l : List (String × Rule))
    (h : (l.map Prod.fst).Nodup) : ((dinsert k v l).map Prod.fst).Nodup := by
  rw [map_fst_dinsert]
  by_cases hm : k ∈ l.map Prod.fst
  · simpa [hm] using h
  · simp only [if_neg hm]
    rw [List.nodup_append]
    exact ⟨h, List.nodup_singleton k, by simpa using fun hk => hm hk⟩

theorem keysNodup_loadFromCsv (rows : List CsvRow) :
    ((loadFromCsv rows).map Prod.fst).Nodup := by
  suffices hgen : ∀ acc : List (String × Rule), (acc.map Prod.fst).Nodup →
      ((rows.foldl
        (fun acc row =>
          match csvRowRule row with
          | none => acc
          | some (k, r) => dinsert k r acc) acc).map Prod.fst).Nodup by
    exact hgen [] (by simp)
  induction rows with
  | nil => intro acc h; simpa using h
  | cons row rest ih =>
    intro acc h
    simp only [List.foldl_cons]
    apply ih
    cases hrow : csvRowRule row with
    | none => simpa [hrow] using h
    | some p =>
      rcases p with ⟨k, r⟩
      simpa [hrow] using keysNodup_dinsert k r acc h

theorem dlookup_reverse_of_nodup (k : String) (l : List (String × Rule))
    (h : (l.map Prod.fst).Nodup) : dlookup k l.reverse = dlookup k l := by
  induction l with
  | nil => rfl
  | cons p rest ih =>
    simp only [List.map_cons, List.nodup_cons] at h
    rw [List.reverse_cons, dlookup_append, ih h.2]
    by_cases hk : p.1 = k
    · have : dlookup k rest = none :=
        dlookup_none_of_not_mem k rest (hk ▸ h.1)
      simp [dlookup, hk, this, Option.orElse]
    · cases hr : dlookup k rest <;> simp [dlookup, hk, hr, Option.orElse]

/-! ## Claim C2 — merge semantics of the CSV rule overlay -/

/-- The concrete CSV overlay used to refute the union claim: one row for the
`urgent_safety` category whose only trigger is `checkin`. -/
def csvRow0 : CsvRow := { category := "urgent_safety", example_triggers := "checkin" }

/-- A placeholder rule for `Option.getD` (never reached in the statements
below, which first establish `isSome`). -/
def noRule : Rule := ⟨"", "", [], 0⟩

/-- C2 (counterexample): with a CSV overlay that redefines `urgent_safety`
with the single trigger `checkin`, the merged rule set's `urgent_safety`
patterns are exactly the CSV's compiled pattern — the default urgent-safety
alternation is *dropped*, not unioned, refuting the claim that for a category
present in both sources the merged triggers are the union of both. -/
theorem claim_C2_counterexample :
    (dlookup "urgent_safety" defaultsDict).isSome = true
  ∧ (dlookup "urgent_safety" (loadFromCsv [csvRow0])).isSome = true
  ∧ ((dlookup "urgent_safety" (rulesLoad [csvRow0])).getD noRule).patterns
      = [[termPattern "checkin"]]
  ∧ urgencyRe ∈ ((dlookup "urgent_safety" defaultsDict).getD noRule).patterns
  ∧ urgencyRe ∉ ((dlookup "urgent_safety" (rulesLoad [csvRow0])).getD noRule).patterns
  := by decide

/-- C2 (amended): for every parsed CSV overlay and category, the merged rule
set binds the category to the CSV's rule when the CSV defines one (the CSV
rule *replaces* the default wholesale — patterns, `response_key` and
`priority`), and to the built-in default otherwise. -/
theorem claim_C2_csv_replaces_default (rows : List CsvRow) (cat : String) :
    dlookup cat (rulesLoad rows) =
      (dlookup cat (loadFromCsv rows)).orElse (fun _ => dlookup cat defaultsDict) := by
  show dlookup cat (dupdate defaultsDict (loadFromCsv rows)) = _
  rw [dlookup_dupdate,
    dlookup_reverse_of_nodup cat (loadFromCsv rows) (keysNodup_loadFromCsv rows)]

/-! ## Claim C6 — "I was harassed by someone" -/

/-- C6 (divergence): on the input `"I was harassed by someone"` the router
used by `respond` yields `harassment_hate` (key `conduct`), not the Title-IX
category, and `respond` returns the conduct template, which does not contain
the words "Title IX" — contradicting the claim (and the repo's own
`tests/run_smoke.py`, which asserts `"Title IX" in tix["text"]` for this
exact input, and `tests/test_phase6_demo_scenarios.py`). -/
theorem claim_C6_harassed_is_conduct :
    route "I was harassed by someone" = some ⟨"harassment_hate", "conduct"⟩
  ∧ (respond [] "I was harassed by someone").text = templateFor "conduct"
  ∧ (respond [] "I was harassed by someone").trace =
      [.route (some "harassment_hate")]
  ∧ strContains (respond [] "I was harassed by someone").text "Title IX" = false
  := by decide

/-! ## Claim C7 — normalization before rule matching -/

/-- C7 (divergence): the classifier on the `respond` path
(`safety_router.route`) performs no slang/typo normalization: the misspelling
`"harrased"` matches no pattern and classifies as `none`, while its canonical
form `"harassed"` classifies as `harassment_hate` — so the variant's
classification differs from the canonical form's, contradicting the claim.
The fixed lookup table does exist (`NORMALIZE_MAP`/`Rules.normalize` in
`rules.py`) and would canonicalize the variant — the unused `Rules.match`
treats the variant exactly like the canonical form — but nothing on the
`respond` path calls it (the repo's `tests/run_smoke.py` expects the variant
to still route to a Title IX answer). -/
theorem claim_C7_no_normalization_on_respond_path :
    rulesNormalize "I was harrased yesterday" = "i was harassed yesterday"
  ∧ route "I was harrased yesterday" = none
  ∧ route "I was harassed yesterday" = some ⟨"harassment_hate", "conduct"⟩
  ∧ rulesMatch defaultsDict "I was harrased yesterday" = some ("title_ix", "title_ix")
  ∧ rulesMatch defaultsDict "I was harrased yesterday"
      = rulesMatch defaultsDict "I was harassed yesterday"
  := by decide

/-! ## Claim C8 — group/workshop counseling texts -/

/-- C8 (divergence): for the counseling-routed input
`"Is there a counseling workshop on sleep?"` (which contains the group/workshop
marker `"workshop"`), the rule planner has no group/workshop branch: it plans
the single fixed `counseling` template step, not a retrieve step, and
`respond` returns the static counseling template for any corpus —
contradicting the claim (and the repo's own
`tests/test_phase5_routing_planner.py::test_planner_group_and_workshop_do_retrieve`,
which asserts a retrieval-style answer for this exact input). -/
theorem claim_C8_workshop_plans_template :
    route "Is there a counseling workshop on sleep?" = some ⟨"counseling", "counseling"⟩
  ∧ strContains "Is there a counseling workshop on sleep?" "workshop" = true
  ∧ plannerPlan (some "counseling") "Is there a counseling workshop on sleep?"
      = [⟨"counseling", .empty⟩]
  ∧ (respond [] "Is there a counseling workshop on sleep?").text
      = templateFor "counseling"
  ∧ (respond [] "Is there a counseling workshop on sleep?").trace
      = [.route (some "counseling"),
         .plan "rule" [⟨"counseling", .empty⟩],
         .tool "counseling" none false false]
  := by decide

/-! ## Claim C1 — urgent-safety inputs short-circuit to the crisis template -/

theorem route_of_urgent (text : String) (h : searchRe urgencyRe text = true) :
    route text = some ⟨"urgent_safety", "crisis"⟩ := by
  simp [route, h]

/-- C1: for every corpus and every input matched by the urgent-safety pattern
set, `respond` returns exactly the fixed crisis template, the trace is the
single `route` event (so it contains no `tool` events), and no planning, tool
execution, enhancement or alternative-suggestion step runs afterwards. -/
theorem claim_C1_crisis_short_circuit (items : List Chunk) (text : String)
    (h : searchRe urgencyRe text = true) :
    (respond items text).text = crisisMessage
  ∧ (respond items text).trace = [.route (some "urgent_safety")]
  ∧ (respond items text).trace.filter isToolEvent = [] := by
  have hr : route text = some ⟨"urgent_safety", "crisis"⟩ := route_of_urgent text h
  have hresp : respond items text = ⟨crisisMessage, [.route (some "urgent_safety")]⟩ := by
    simp [respond, hr]
  rw [hresp]
  exact ⟨rfl, rfl, rfl⟩

/-- C1 (witness): the concrete urgent input `"i want to kms"` satisfies the
hypothesis and gets the crisis template with a tool-free trace. -/
theorem claim_C1_witness :
    searchRe urgencyRe "i want to kms" = true
  ∧ (respond [] "i want to kms").text = crisisMessage
  ∧ (respond [] "i want to kms").trace = [.route (some "urgent_safety")] :=
  ⟨by decide,
   (claim_C1_crisis_short_circuit [] "i want to kms" (by decide)).1,
   (claim_C1_crisis_short_circuit [] "i want to kms" (by decide)).2.1⟩

/-! ## Lower-casing is idempotent -/

theorem pyLowerChar_idem (c : Char) : pyLowerChar (pyLowerChar c) = pyLowerChar c := by
  unfold pyLowerChar
  by_cases h : 65 ≤ c.toNat ∧ c.toNat ≤ 90
  · simp only [if_pos h]
    have key : (Char.ofNat (c.toNat + 32)).toNat = c.toNat + 32 := by
      obtain ⟨h1, h2⟩ := h
      generalize c.toNat = n at h1 h2 ⊢
      interval_cases n <;> decide
    rw [key, if_neg (by omega)]
  · simp only [if_neg h]

theorem lowerChars_idem (s : List Char) : lowerChars (lowerChars s) = lowerChars s := by
  induction s with
  | nil => rfl
  | cons c rest ih =>
    simp only [lowerChars, List.map_cons] at ih ⊢
    rw [pyLowerChar_idem]
    exact congrArg _ ih

/-! ## Claim C10 — the `route` event is first on every path -/

theorem goSteps_events_tool (items : List Chunk) (qt ut : String) :
    ∀ (steps : List PlanStep) (n : Nat), ∀ e ∈ (goSteps items qt ut steps n).2,
      isToolEvent e = true := by
  intro steps
  induction steps with
  | nil => intro n e he; simp [goSteps] at he
  | cons step rest ih =>
    intro n e he
    simp only [goSteps] at he
    split at he
    · simp only [List.mem_cons, List.mem_singleton] at he
      rcases he with h | h | h | h
      · subst h; rfl
      · subst h; rfl
      · subst h; rfl
      · simp at h
    · rcases List.mem_cons.mp he with h | h
      · subst h; rfl
      · exact ih (n + 1) e h

/-- C10: every `respond` trace begins with the `route` event — in particular
the crisis short-circuit's trace is `[route]` and a decline's trace is
`[route, decline]`, never `[decline]` alone. -/
theorem claim_C10_route_event_first (items : List Chunk) (text : String) :
    (respond items text).trace.head? =
      some (.route ((route text).map RouteResult.level))
  ∧ (Event.decline ∈ (respond items text).trace →
      (respond items text).trace =
        [.route ((route text).map RouteResult.level), .decline]) := by
  unfold respond
  simp only []
  split
  · exact ⟨rfl, fun hd => by simp at hd⟩
  · split
    · exact ⟨rfl, fun _ => rfl⟩
    · split
      · exact ⟨rfl, fun hd => by simp at hd⟩
      · refine ⟨by simp, fun hd => ?_⟩
        exfalso
        simp only [List.append_assoc, List.cons_append, List.nil_append,
          List.mem_cons, List.mem_append] at hd
        rcases hd with h | h | h
        · exact absurd h (by simp)
        · exact absurd h (by simp)
        · have := goSteps_events_tool items text text _ 0 _ h
          simp [isToolEvent] at this

/-- C10 (witness): a concrete declining input whose trace is
`[route, decline]`, via the theorem's implication. -/
theorem claim_C10_witness :
    (respond [] "I don\x27t want counseling, any other options?").trace =
      [.route (some "counseling"), .decline] := by
  have h := (claim_C10_route_event_first []
    "I don\x27t want counseling, any other options?").2 (by decide)
  rw [h]
  have : route "I don\x27t want counseling, any other options?" =
      some ⟨"counseling", "counseling"⟩ := by decide
  rw [this]
  rfl

/-! ## Claim C3 — the clarify→retrieve auto-recovery -/

theorem goSteps_no_auto_of_pos (items : List Chunk) (qt ut : String) :
    ∀ (steps : List PlanStep) (n : Nat), 1 ≤ n →
      (goSteps items qt ut steps n).2.filter isAutoClarifyEvent = []
    ∧ (goSteps items qt ut steps n).2.filter isRetryEvent = [] := by
  intro steps
  induction steps with
  | nil => intro n _; exact ⟨rfl, rfl⟩
  | cons step rest ih =>
    intro n hn
    simp only [goSteps]
    rw [if_neg (by rintro ⟨h1, -⟩; omega)]
    simp only [List.filter_cons]
    have h2 := ih (n + 1) (by omega)
    simpa [isAutoClarifyEvent, isRetryEvent] using h2

theorem runSteps_no_auto (items : List Chunk) (qt ut : String)
    (steps : List PlanStep)
    (h : ∀ s, steps.head? = some s → s.tool = "retrieve" →
      shouldAutoClarify ut = false) :
    (runSteps items qt ut steps).2.filter isAutoClarifyEvent = []
  ∧ (runSteps items qt ut steps).2.filter isRetryEvent = [] := by
  unfold runSteps
  cases steps with
  | nil => exact ⟨rfl, rfl⟩
  | cons step rest =>
    rw [show (step :: rest).take 2 = step :: rest.take 1 from rfl]
    simp only [goSteps]
    rw [if_neg ?hguard]
    case hguard =>
      rintro ⟨-, htool, -, hsac⟩
      rw [h step rfl htool] at hsac
      exact Bool.false_ne_true hsac
    simp only [List.filter_cons]
    have h2 := goSteps_no_auto_of_pos items qt ut (rest.take 1) 1 le_rfl
    simpa [isAutoClarifyEvent, isRetryEvent] using h2

/-- If `shouldAutoClarify` holds, the text is appointment-like and carries no
medical marker (in the planner's sense): the legacy heuristic demands the
literal substring `appointment` and forbids every medical and counseling
word. -/
theorem shouldAutoClarify_imp (ut : String)
    (h : shouldAutoClarify ut = true) :
    looksLikeAppointment (String.mk (lowerChars ut.data)) = true
  ∧ hasMedicalMarker (String.mk (lowerChars ut.data)) = false := by
  simp only [shouldAutoClarify] at h
  by_cases h1 : strContains (String.mk (lowerChars ut.data)) "appointment" = false
  · rw [if_pos h1] at h; cases h
  · rw [if_neg h1] at h
    by_cases h2 : (["medical", "doctor", "nurse", "immunization", "vaccine",
        "shot", "counseling", "counselling", "therapy", "therapist"].any
        fun w => strContains (String.mk (lowerChars ut.data)) w) = true
    · rw [if_pos h2] at h; cases h
    · have happ : strContainsL (lowerChars ut.data) "appointment".data = true := by
        revert h1
        unfold strContains
        cases hx : strContainsL (lowerChars ut.data) "appointment".data
        · intro h1; exact absurd rfl h1
        · intro _; rfl
      constructor
      · unfold looksLikeAppointment containsAny
        apply List.any_eq_true.mpr
        refine ⟨"appointment", by decide, ?_⟩
        show strContainsL (lowerChars (lowerChars ut.data)) "appointment".data = true
        rw [lowerChars_idem]
        exact happ
      · unfold hasMedicalMarker containsAny
        apply List.any_eq_false.mpr
        intro w hw
        have hwmem : w ∈ ["medical", "doctor", "nurse", "immunization", "vaccine",
            "shot", "counseling", "counselling", "therapy", "therapist"] := by
          fin_cases hw <;> decide
        intro hcontra
        apply h2
        apply List.any_eq_true.mpr
        refine ⟨w, hwmem, ?_⟩
        show strContains (String.mk (lowerChars ut.data)) w = true
        show strContainsL (lowerChars ut.data) w.data = true
        have hc2 : strContainsL (lowerChars (lowerChars ut.data)) w.data = true := hcontra
        rwa [lowerChars_idem] at hc2

/-- In every plan the rule planner can produce, a first step with tool
`retrieve` forces `shouldAutoClarify` to be false on the planned text. -/
theorem planner_first_retrieve_no_auto (lvl : Option String) (ut : String) :
    ∀ s, (plannerPlan lvl ut).head? = some s → s.tool = "retrieve" →
      shouldAutoClarify ut = false := by
  intro s hs htool
  cases hsac : shouldAutoClarify ut with
  | false => rfl
  | true =>
  exfalso
  have himp := shouldAutoClarify_imp ut hsac
  simp only [plannerPlan] at hs
  by_cases h1 : lvl = some "urgent_safety"
  · rw [if_pos h1] at hs
    simp only [List.head?_cons, Option.some.injEq] at hs
    subst hs
    exact absurd htool (by decide)
  · rw [if_neg h1] at hs
    by_cases h2 : lvl ∈ [some "title_ix", some "harassment_hate",
        some "retention_withdraw", some "counseling"]
    · rw [if_pos h2] at hs
      by_cases h3 : lvl = some "counseling" ∧
          looksLikeAppointment (String.mk (lowerChars ut.data)) = true ∧
          hasMedicalMarker (String.mk (lowerChars ut.data)) = false
      · rw [if_pos h3] at hs
        simp only [clarifyRetrievePlan, List.head?_cons, Option.some.injEq] at hs
        subst hs
        exact absurd htool (by decide)
      · rw [if_neg h3] at hs
        simp only [List.head?_cons, Option.some.injEq] at hs
        subst hs
        simp only [] at htool
        by_cases h4 : lvl = some "retention_withdraw"
        · rw [if_pos h4] at htool; exact absurd htool (by decide)
        · rw [if_neg h4] at htool
          simp only [List.mem_cons, List.mem_singleton, List.not_mem_nil,
            or_false] at h2
          rcases h2 with h | h | h | h
          · rw [h] at htool; exact absurd htool (by decide)
          · rw [h] at htool; exact absurd htool (by decide)
          · exact h4 h
          · -- `lvl = some "counseling"` with the clarify condition false:
            -- but `shouldAutoClarify` makes the condition true
            exact h3 ⟨h, himp.1, himp.2⟩
    · rw [if_neg h2] at hs
      rw [if_pos ⟨himp.1, himp.2⟩] at hs
      simp only [clarifyRetrievePlan, List.head?_cons, Option.some.injEq] at hs
      subst hs
      exact absurd htool (by decide)

/-- C3: under the default configuration the auto-recovery never fires — the
trace of every `respond` call contains no auto `clarify` event and no retry
`retrieve` event.  This entails the claim: the recovery fires at most once,
and the "only when ..." conditions and the clarify-then-retry trace shape
hold vacuously.  (The guard in the code is exactly "first executed step is
`retrieve`, zero hits, `_should_auto_clarify(user_text)`", and
`_should_auto_clarify` demands an appointment term with no medical or
counseling marker; but every such text makes the rule planner emit a
clarify-first plan, so a first `retrieve` step and the heuristic are
mutually exclusive.) -/
theorem claim_C3_auto_recovery_never_fires (items : List Chunk) (text : String) :
    (respond items text).trace.filter isAutoClarifyEvent = []
  ∧ (respond items text).trace.filter isRetryEvent = [] := by
  unfold respond
  simp only []
  split
  · exact ⟨rfl, rfl⟩
  · split
    · exact ⟨rfl, rfl⟩
    · split
      · exact ⟨rfl, rfl⟩
      · have key := runSteps_no_auto items text text
          (plannerPlan ((route text).map RouteResult.level) text)
          (planner_first_retrieve_no_auto ((route text).map RouteResult.level) text)
        simp only [List.append_assoc, List.cons_append, List.nil_append,
          List.filter_append, List.filter_cons]
        simpa [isAutoClarifyEvent, isRetryEvent, runSteps] using key

/-! ## Claim C4 — at most two plan steps execute, in plan order -/

/-- The `tool` events of ordinary plan-step executions in a `runSteps` trace:
there are at most two, and their names are exactly the tools of the plan's
first steps, in plan order — for plans of any length. -/
theorem runSteps_plan_events (items : List Chunk) (qt ut : String)
    (steps : List PlanStep) :
    ((runSteps items qt ut steps).2.filter isPlanStepToolEvent).length ≤ 2
  ∧ ((runSteps items qt ut steps).2.filter isPlanStepToolEvent).map evToolName
      = (steps.take
          ((runSteps items qt ut steps).2.filter isPlanStepToolEvent).length).map
          PlanStep.tool := by
  match steps with
  | [] => exact ⟨by simp [runSteps, goSteps], by simp [runSteps, goSteps]⟩
  | [a] =>
    unfold runSteps
    rw [show ([a] : List PlanStep).take 2 = [a] from rfl]
    simp only [goSteps]
    split
    · simp [isPlanStepToolEvent, evToolName]
    · simp [goSteps, isPlanStepToolEvent, evToolName]
  | a :: b :: rest =>
    unfold runSteps
    rw [show (a :: b :: rest).take 2 = [a, b] from rfl]
    simp only [goSteps]
    split
    · simp [isPlanStepToolEvent, evToolName]
    · rw [if_neg (by rintro ⟨h1, -⟩; omega)]
      simp [isPlanStepToolEvent, evToolName]

/-- C4: in every `respond` call, regardless of the selected plan's length,
at most two of its steps execute, in plan order (`runSteps` is the execution
engine `respond` applies to the selected plan). -/
theorem claim_C4_at_most_two_steps (items : List Chunk) (qt ut : String)
    (steps : List PlanStep) (text : String) :
    ((runSteps items qt ut steps).2.filter isPlanStepToolEvent).length ≤ 2
  ∧ ((runSteps items qt ut steps).2.filter isPlanStepToolEvent).map evToolName
      = (steps.take
          ((runSteps items qt ut steps).2.filter isPlanStepToolEvent).length).map
          PlanStep.tool
  ∧ ((respond items text).trace.filter isPlanStepToolEvent).length ≤ 2 := by
  refine ⟨(runSteps_plan_events items qt ut steps).1,
    (runSteps_plan_events items qt ut steps).2, ?_⟩
  unfold respond
  simp only []
  split
  · simp [isPlanStepToolEvent]
  · split
    · simp [isPlanStepToolEvent]
    · split
      · simp [isPlanStepToolEvent]
      · have key := (runSteps_plan_events items text text
          (plannerPlan ((route text).map RouteResult.level) text)).1
        simp only [List.append_assoc, List.cons_append, List.nil_append,
          List.filter_append, List.filter_cons]
        simpa [isPlanStepToolEvent] using key

/-! ## Claim C5 — properties of `retrieve` -/

theorem mem_insDesc (x a : ℝ × Chunk) (l : List (ℝ × Chunk)) :
    a ∈ insDesc x l ↔ a = x ∨ a ∈ l := by
  induction l with
  | nil => simp [insDesc]
  | cons y ys ih =>
    by_cases h : y.1 ≤ x.1
    · rw [show insDesc x (y :: ys) = x :: y :: ys from by rw [insDesc, if_pos h]]
      simp [or_comm, or_assoc, or_left_comm]
    · rw [show insDesc x (y :: ys) = y :: insDesc x ys from by rw [insDesc, if_neg h]]
      simp [ih, or_left_comm]

theorem mem_sortDesc (a : ℝ × Chunk) (l : List (ℝ × Chunk)) :
    a ∈ sortDesc l ↔ a ∈ l := by
  induction l with
  | nil => simp [sortDesc]
  | cons x xs ih =>
    rw [show sortDesc (x :: xs) = insDesc x (sortDesc xs) from rfl,
      mem_insDesc]
    simp [ih]

theorem pairwise_insDesc (x : ℝ × Chunk) (l : List (ℝ × Chunk))
    (h : l.Pairwise fun a b => b.1 ≤ a.1) :
    (insDesc x l).Pairwise fun a b => b.1 ≤ a.1 := by
  induction l with
  | nil => simp [insDesc]
  | cons y ys ih =>
    rcases List.pairwise_cons.mp h with ⟨hy, hys⟩
    by_cases hle : y.1 ≤ x.1
    · rw [show insDesc x (y :: ys) = x :: y :: ys from by rw [insDesc, if_pos hle]]
      refine List.pairwise_cons.mpr ⟨?_, h⟩
      intro z hz
      rcases List.mem_cons.mp hz with h1 | h1
      · exact h1 ▸ hle
      · exact le_trans (hy z h1) hle
    · rw [show insDesc x (y :: ys) = y :: insDesc x ys from by rw [insDesc, if_neg hle]]
      refine List.pairwise_cons.mpr ⟨?_, ih hys⟩
      intro z hz
      rcases (mem_insDesc x z ys).mp hz with h1 | h1
      · exact h1 ▸ le_of_lt (lt_of_not_le hle)
      · exact hy z h1

theorem pairwise_sortDesc (l : List (ℝ × Chunk)) :
    (sortDesc l).Pairwise fun a b => b.1 ≤ a.1 := by
  induction l with
  | nil => simp [sortDesc]
  | cons x xs ih => exact pairwise_insDesc x (sortDesc xs) ih

theorem filter_fst_insDesc (s : ℝ) (x : ℝ × Chunk) (l : List (ℝ × Chunk)) :
    (insDesc x l).filter (fun p => p.1 = s) =
      if x.1 = s then x :: l.filter (fun p => p.1 = s)
      else l.filter (fun p => p.1 = s) := by
  induction l with
  | nil =>
    by_cases hx : x.1 = s <;> simp [insDesc, List.filter_cons, hx]
  | cons y ys ih =>
    by_cases hle : y.1 ≤ x.1
    · rw [show insDesc x (y :: ys) = x :: y :: ys from by rw [insDesc, if_pos hle]]
      by_cases hx : x.1 = s <;> simp [List.filter_cons, hx]
    · rw [show insDesc x (y :: ys) = y :: insDesc x ys from by rw [insDesc, if_neg hle]]
      by_cases hy : y.1 = s
      · have hx : ¬ x.1 = s := by
          intro hx
          exact hle (le_of_eq (hy.trans hx.symm))
        simp [List.filter_cons, hy, hx, ih]
      · by_cases hx : x.1 = s <;> simp [List.filter_cons, hy, hx, ih]

theorem filter_fst_sortDesc (s : ℝ) (l : List (ℝ × Chunk)) :
    (sortDesc l).filter (fun p => p.1 = s) = l.filter (fun p => p.1 = s) := by
  induction l with
  | nil => rfl
  | cons x xs ih =>
    rw [show sortDesc (x :: xs) = insDesc x (sortDesc xs) from rfl,
      filter_fst_insDesc, ih]
    by_cases hx : x.1 = s <;> simp [List.filter_cons, hx]

theorem filter_take_prefix {α : Type} (p : α → Bool) :
    ∀ (l : List α) (n : Nat), (l.take n).filter p <+: l.filter p := by
  intro l
  induction l with
  | nil => intro n; simp
  | cons x xs ih =>
    intro n
    cases n with
    | zero => simp
    | succ m =>
      rw [List.take_succ_cons]
      by_cases hx : p x
      · rw [List.filter_cons_of_pos hx, List.filter_cons_of_pos hx]
        obtain ⟨t, ht⟩ := ih m
        exact ⟨t, by rw [List.cons_append, ht]⟩
      · rw [List.filter_cons_of_neg hx, List.filter_cons_of_neg hx]
        exact ih m

/-- Every pair produced by the scoring stage carries its own score: a member
of the eligible list is `(score c, c)` with a strictly positive score. -/
theorem mem_scored (items : List Chunk) (query : String) (p : ℝ × Chunk)
    (hp : p ∈ (items.map fun c => (score items query c, c)).filter
        fun q => 0 < q.1) :
    p.1 = score items query p.2 ∧ 0 < p.1 ∧ p.2 ∈ items := by
  rcases List.mem_filter.mp hp with ⟨hmem, hpos⟩
  rcases List.mem_map.mp hmem with ⟨c, hc, hpc⟩
  refine ⟨?_, of_decide_eq_true hpos, ?_⟩
  · rw [← hpc]
  · rw [← hpc]; exact hc

/-- C5 (amended): for every query, corpus and integers `k` and `tk`,
`retrieve(query, k, top_k=tk)` returns at most `max 1 tk` chunks (the limit
is clamped to at least one), every returned chunk scores strictly positively,
the results are ordered by non-increasing score, and for every score value
the returned chunks of that score form a prefix of the corpus's chunks of
that score in original corpus order (the sort is stable). -/
theorem claim_C5_retrieve_bounds (query : String) (items : List Chunk)
    (k tk : Int) (s : ℝ) :
    (retrieve query items k (some tk)).length ≤ (max 1 tk).toNat
  ∧ (retrieve query items k (some tk)).Forall (fun c => 0 < score items query c)
  ∧ (retrieve query items k (some tk)).Pairwise
      (fun a b => score items query b ≤ score items query a)
  ∧ (retrieve query items k (some tk)).filter
        (fun c => score items query c = s) <+:
      items.filter (fun c => score items query c = s) := by
  unfold retrieve
  simp only [Option.getD_some]
  split
  · exact ⟨Nat.zero_le _, trivial, List.Pairwise.nil, List.nil_prefix⟩
  · split
    · exact ⟨Nat.zero_le _, trivial, List.Pairwise.nil, List.nil_prefix⟩
    · refine ⟨?_, ?_, ?_, ?_⟩
      · rw [List.length_map, List.length_take]
        exact le_trans (Nat.min_le_left _ _) le_rfl
      · rw [List.forall_iff_forall_mem]
        intro c hc
        rcases List.mem_map.mp hc with ⟨p, hpmem, hpc⟩
        have hp2 := mem_scored items query p
          (mem_sortDesc p _ |>.mp (List.take_subset _ _ hpmem))
        rw [← hpc, ← hp2.1]
        exact hp2.2.1
      · rw [List.pairwise_map]
        have hsorted : ((sortDesc ((items.map fun c =>
            (score items query c, c)).filter fun q => 0 < q.1)).take
              (max 1 tk).toNat).Pairwise (fun a b => b.1 ≤ a.1) :=
          (pairwise_sortDesc _).sublist (List.take_sublist _ _)
        refine hsorted.imp_of_mem ?_
        intro p q hpmem hqmem hle
        have hp2 := mem_scored items query p
          (mem_sortDesc p _ |>.mp (List.take_subset _ _ hpmem))
        have hq2 := mem_scored items query q
          (mem_sortDesc q _ |>.mp (List.take_subset _ _ hqmem))
        rw [← hp2.1, ← hq2.1]
        exact hle
      · -- stability: score-`s` chunks of the output are a prefix of the
        -- score-`s` chunks of the corpus
        have step1 : (((sortDesc ((items.map fun c => (score items query c, c)).filter
              fun q => 0 < q.1)).take (max 1 tk).toNat).map Prod.snd).filter
              (fun c => score items query c = s) =
            (((sortDesc ((items.map fun c => (score items query c, c)).filter
              fun q => 0 < q.1)).take (max 1 tk).toNat).filter
              (fun p => p.1 = s)).map Prod.snd := by
          rw [List.filter_map]
          congr 1
          apply List.filter_congr
          intro p hpmem
          have hp2 := mem_scored items query p
            (mem_sortDesc p _ |>.mp (List.take_subset _ _ hpmem))
          simp only [Function.comp_apply]
          rw [hp2.1]
        rw [step1]
        have step2 : (((sortDesc ((items.map fun c => (score items query c, c)).filter
              fun q => 0 < q.1)).take (max 1 tk).toNat).filter
              (fun p => p.1 = s)) <+:
            (((items.map fun c => (score items query c, c)).filter
              fun q => 0 < q.1).filter (fun p => p.1 = s)) := by
          have h7 := filter_take_prefix
            (fun (p : ℝ × Chunk) => decide (p.1 = s))
            (sortDesc ((items.map fun c => (score items query c, c)).filter
              fun q => 0 < q.1)) ((max 1 tk).toNat)
          rwa [filter_fst_sortDesc] at h7
        have step3 : (((items.map fun c => (score items query c, c)).filter
              fun q => 0 < q.1).filter (fun p => p.1 = s)) <+:
            ((items.map fun c => (score items query c, c)).filter
              (fun p => p.1 = s)) := by
          by_cases hs : 0 < s
          · rw [List.filter_filter]
            have : ((items.map fun c => (score items query c, c)).filter
                fun p => decide (p.1 = s) && decide (0 < p.1)) =
                ((items.map fun c => (score items query c, c)).filter
                  fun p => decide (p.1 = s)) := by
              apply List.filter_congr
              intro p _
              by_cases hps : p.1 = s
              · simp [hps, hs]
              · simp [hps]
            rw [this]
          · have : (((items.map fun c => (score items query c, c)).filter
                fun q => 0 < q.1).filter (fun p => p.1 = s)) = [] := by
              rw [List.filter_eq_nil_iff]
              intro p hp
              have h2 := mem_scored items query p hp
              intro hps
              exact hs ((of_decide_eq_true hps) ▸ h2.2.1)
            rw [this]
            exact List.nil_prefix
        have step4 : ((items.map fun c => (score items query c, c)).filter
              (fun p => p.1 = s)).map Prod.snd =
            items.filter (fun c => score items query c = s) := by
          rw [List.filter_map, List.map_map]
          rw [show ((fun (p : ℝ × Chunk) => decide (p.1 = s)) ∘
              (fun c => (score items query c, c))) =
              (fun c => decide (score items query c = s)) from rfl]
          rw [show (Prod.snd ∘ fun c => ((score items query c : ℝ), c)) =
              (id : Chunk → Chunk) from rfl]
          rw [List.map_id]
        rw [← step4]
        exact (step2.trans step3).map Prod.snd

/-- A one-chunk corpus whose only chunk scores positively for the query
`"appointment"`. -/
def apptChunk : Chunk := ⟨some "appointment", none, none, none⟩

set_option maxRecDepth 10000 in
theorem score_apptChunk_eq : score [apptChunk] "appointment" apptChunk =
    0 + idf [apptChunk] "appointment".data *
      (↑(1:ℕ) * ↑(1:ℕ) * 1.0 + ↑(1:ℕ) * ↑(0:ℕ) * 2.0 + ↑(1:ℕ) * ↑(0:ℕ) * 1.0) + 0 := rfl

set_option maxRecDepth 10000 in
theorem idf_apptChunk_eq : idf [apptChunk] "appointment".data =
    Real.log ((((1:ℕ):ℝ) - ↑(1:ℕ) + 0.5) / (↑(1:ℕ) + 0.5) + 1) := rfl

theorem score_apptChunk_pos : 0 < score [apptChunk] "appointment" apptChunk := by
  rw [score_apptChunk_eq, idf_apptChunk_eq]
  norm_num
  exact Real.log_pos (by norm_num)

theorem retrieve_apptChunk_topk_zero :
    retrieve "appointment" [apptChunk] 3 (some 0) = [apptChunk] := by
  unfold retrieve
  simp only [Option.getD_some]
  rw [if_neg (by decide)]
  rw [show ([apptChunk].map fun c => (score [apptChunk] "appointment" c, c)) =
      [(score [apptChunk] "appointment" apptChunk, apptChunk)] from rfl]
  rw [List.filter_cons, if_pos (decide_eq_true score_apptChunk_pos),
    List.filter_nil]
  rw [if_neg (by simp)]
  rfl

/-- C5 (counterexample): `retrieve(query, top_k=0)` does not return at most
`0` chunks — the limit is clamped to `max(1, top_k)`, so a one-chunk corpus
with a positively scoring chunk yields one result, refuting the claim for
`k = 0`. -/
theorem claim_C5_counterexample :
    ¬ ((retrieve "appointment" [apptChunk] 3 (some 0)).length ≤ 0) := by
  rw [retrieve_apptChunk_topk_zero]
  decide

/-! ## Claim C9 — de-duplication of the assembled final text

The plan-execution-assembly path of `respond` (the path that records a
`plan` event and then joins the executed steps' outputs) applies no
de-duplication.  The input `"how do I book an appointment"` reaches output
assembly: it routes to no category, plans clarify→retrieve, retrieves one
hit from a one-chunk corpus, and the assembled text repeats the blank line
(once from the `"\n\n"` join of the two step outputs, once from
`compose_answer`'s `"\nSources:"` separator). -/

/-- Is this the `plan` trace event?  It is recorded exactly on the path that
goes on to execute steps and assemble the final text. -/
def isPlanEvent : Event → Bool
  | .plan _ _ => true
  | _ => false

/-- A query that reaches output assembly against the corpus `[apptChunk]`:
no route category, clarify→retrieve plan, one retrieval hit. -/
def bookQuery : String := "how do I book an appointment"

set_option maxRecDepth 10000 in
theorem score_book_eq : score [apptChunk] bookQuery apptChunk =
    0 + 0 * (↑(1:ℕ) * ↑(0:ℕ) * 1.0 + ↑(1:ℕ) * ↑(0:ℕ) * 2.0 + ↑(1:ℕ) * ↑(0:ℕ) * 1.0)
      + 0 * (↑(1:ℕ) * ↑(0:ℕ) * 1.0 + ↑(1:ℕ) * ↑(0:ℕ) * 2.0 + ↑(1:ℕ) * ↑(0:ℕ) * 1.0)
      + idf [apptChunk] "appointment".data *
          (↑(1:ℕ) * ↑(1:ℕ) * 1.0 + ↑(1:ℕ) * ↑(0:ℕ) * 2.0 + ↑(1:ℕ) * ↑(0:ℕ) * 1.0)
      + 0 := rfl

theorem score_book_pos : 0 < score [apptChunk] bookQuery apptChunk := by
  rw [score_book_eq, idf_apptChunk_eq]
  norm_num
  exact Real.log_pos (by norm_num)

theorem retrieve_book : retrieve bookQuery [apptChunk] 3 (some 3) = [apptChunk] := by
  unfold retrieve
  simp only [Option.getD_some]
  rw [if_neg (by decide)]
  rw [show ([apptChunk].map fun c => (score [apptChunk] bookQuery c, c)) =
      [(score [apptChunk] bookQuery apptChunk, apptChunk)] from rfl]
  rw [List.filter_cons, if_pos (decide_eq_true score_book_pos),
    List.filter_nil]
  rw [if_neg (by simp)]
  rfl

theorem runRetrieve_book : runRetrieve [apptChunk] bookQuery =
    (composeAnswer [apptChunk], 1) := by
  unfold runRetrieve
  rw [retrieve_book]
  rfl

theorem execTool_book : execTool [apptChunk] "retrieve" bookQuery (.query bookQuery) =
    (composeAnswer [apptChunk], 1) := by
  show runRetrieve [apptChunk] bookQuery = _
  exact runRetrieve_book

theorem runSteps_book :
    runSteps [apptChunk] bookQuery bookQuery (clarifyRetrievePlan bookQuery) =
      ([clarifyText, composeAnswer [apptChunk]],
       [.tool "clarify" none false false, .tool "retrieve" (some 1) false false]) := by
  unfold runSteps
  rw [show (clarifyRetrievePlan bookQuery).take 2 = clarifyRetrievePlan bookQuery from rfl]
  simp only [clarifyRetrievePlan, goSteps]
  rw [if_neg (by rintro ⟨-, h, -, -⟩; exact absurd h (by decide))]
  rw [if_neg (by rintro ⟨h, -⟩; omega)]
  rw [execTool_book]
  rfl

/-- The `respond` call for `bookQuery` over the one-chunk corpus, fully
evaluated: it records `route`, `plan`, and two plan-step `tool` events, and
assembles the clarify question and the retrieval answer. -/
theorem respond_book_eq : respond [apptChunk] bookQuery =
    ⟨String.intercalate "\n\n" [clarifyText, composeAnswer [apptChunk]],
     [.route none, .plan "rule" (clarifyRetrievePlan bookQuery),
      .tool "clarify" none false false, .tool "retrieve" (some 1) false false]⟩ := by
  unfold respond
  simp only []
  rw [show route bookQuery = none from by decide]
  rw [if_neg (fun hc => absurd hc.1 (by decide))]
  rw [if_neg (fun hc => absurd hc.2 (by decide))]
  rw [if_neg (fun hc => absurd hc.1 (by decide))]
  rw [show plannerPlan ((none : Option RouteResult).map RouteResult.level) bookQuery =
      clarifyRetrievePlan bookQuery from rfl]
  rw [runSteps_book]
  rfl

set_option maxRecDepth 8000 in
theorem book_text_dup :
    ¬ ((linesOf (String.intercalate "\n\n" [clarifyText, composeAnswer [apptChunk]])).map
        normLine).Nodup := by decide

/-- C9 (counterexample): a `respond` call that reaches output assembly (it
plans clarify→retrieve and joins both executed steps' outputs) returns a
final text with a repeated line up to case/whitespace — the blank line occurs
once as the join separator and once before `compose_answer`'s `Sources:`
section — refuting the claim that the assembled final text never repeats a
line. -/
theorem claim_C9_counterexample :
    ¬ ((linesOf (respond [apptChunk] bookQuery).text).map normLine).Nodup := by
  rw [respond_book_eq]
  exact book_text_dup

/-- C9 (amended): on every `respond` call that reaches output assembly
(equivalently, whose trace records a `plan` event), the final returned text
is exactly the blank-line join of the executed steps' non-empty outputs —
no de-duplication of repeated lines is applied to the assembled text. -/
theorem claim_C9_no_dedup (items : List Chunk) (text : String)
    (h : (respond items text).trace.any isPlanEvent = true) :
    (respond items text).text =
      String.intercalate "\n\n"
        ((runSteps items text text
          (plannerPlan ((route text).map RouteResult.level) text)).1.filter
          fun p => p ≠ "") := by
  unfold respond at h ⊢
  simp only [] at h ⊢
  by_cases h1 : (route text).isSome = true ∧
      (route text).map RouteResult.auto_reply_key = some "crisis"
  · rw [if_pos h1] at h
    simp [isPlanEvent] at h
  · rw [if_neg h1] at h ⊢
    by_cases h2 : (route text).map RouteResult.level ≠ some "crisis" ∧
        isDecline text = true
    · rw [if_pos h2] at h
      simp [isPlanEvent] at h
    · rw [if_neg h2] at h ⊢
      by_cases h3 : (route text).isSome = true ∧
          ((route text).map RouteResult.level ≠ some "counseling" ∨
            ((route text).map RouteResult.level = some "counseling" ∧
              (decide ((route text).map RouteResult.level = some "counseling") &&
                apptOrGroupMarkers.any fun m =>
                  strContains (String.mk (lowerChars text.data)) m) = false))
      · rw [if_pos h3] at h
        simp [isPlanEvent] at h
      · rw [if_neg h3] at h ⊢

/-- C9 (witness): the concrete assembly-reaching input discharges the
amended theorem's hypothesis — its trace has a `plan` event — and its final
text is the plain join of the two executed steps' outputs. -/
theorem claim_C9_witness :
    (respond [apptChunk] bookQuery).trace.any isPlanEvent = true
  ∧ (respond [apptChunk] bookQuery).text =
      String.intercalate "\n\n"
        ((runSteps [apptChunk] bookQuery bookQuery
          (plannerPlan ((route bookQuery).map RouteResult.level) bookQuery)).1.filter
          fun p => p ≠ "") :=
  ⟨by rw [respond_book_eq]; rfl,
   claim_C9_no_dedup [apptChunk] bookQuery (by rw [respond_book_eq]; rfl)⟩

end RIH
